import Mathlib

/-!
Verification of the storage-endpoint resolution, URL derivation, remote-path
building and upload lifecycle logic of the `mcp-webpage-to-s3` repository
(`src/libcloud_wrapper.py`, `src/server.py`), via a shallow embedding in Lean.

Python strings are modelled as `List Char`; every string primitive used by
the source (`strip`, `rstrip`, `startswith`, `endswith`, `in`, `replace`,
`split`, `lower`, truthiness of optional strings, `or`-defaulting) is defined
below with Python's semantics.
-/

namespace McpS3

/-- Python `str`, modelled as a list of code points. -/
abbrev PyStr := List Char

/-- Coercion from Lean string literals used for concrete test inputs. -/
def lit (s : String) : PyStr := s.data

/-- Python truthiness of an `Optional[str]`: `None` and `""` are falsy. -/
def truthyOpt : Option PyStr → Bool
  | none => false
  | some s => !s.isEmpty

/-- Python truthiness of a plain `str`: `""` is falsy. -/
def truthyStr (s : PyStr) : Bool := !s.isEmpty

/-- Python `a or d` for `a : Optional[str]`, `d` a string. -/
def pyOr (a : Option PyStr) (d : PyStr) : PyStr :=
  match a with
  | none => d
  | some s => if s.isEmpty then d else s

/-- Python `s.startswith(p)`. -/
def startsWithL : PyStr → PyStr → Bool
  | [], _ => true
  | _ :: _, [] => false
  | p :: ps, c :: cs => p == c && startsWithL ps cs

/-- Python `s.endswith(p)`. -/
def endsWithL (p s : PyStr) : Bool := startsWithL p.reverse s.reverse

/-- Python `p in s` (substring containment). -/
def containsSub (p : PyStr) : PyStr → Bool
  | [] => startsWithL p []
  | s@(_ :: cs) => startsWithL p s || containsSub p cs

/-- Python `s.lstrip(c)` for a single strip character. -/
def lstripC (c : Char) (s : PyStr) : PyStr := s.dropWhile (· == c)

/-- Python `s.rstrip(c)` for a single strip character. -/
def rstripC (c : Char) (s : PyStr) : PyStr := (s.reverse.dropWhile (· == c)).reverse

/-- Python `s.strip(c)` for a single strip character (removing the run of
`c` at each end; the two ends are independent, so either composition order
models it). -/
def stripC (c : Char) (s : PyStr) : PyStr := lstripC c (rstripC c s)

/-- Fuel-driven scanner for `replaceAll` (structural recursion on the fuel so
that concrete instances reduce in the kernel; each step consumes one unit of
fuel and at least one character, so fuel `s.length` never runs out). -/
def replaceAllAux (pat rep : PyStr) : Nat → PyStr → PyStr
  | 0, s => s
  | _ + 1, [] => []
  | fuel + 1, c :: cs =>
    if pat ≠ [] ∧ startsWithL pat (c :: cs) = true then
      rep ++ replaceAllAux pat rep fuel (cs.drop (pat.length - 1))
    else
      c :: replaceAllAux pat rep fuel cs

/-- Python `s.replace(pat, rep)`: replace every non-overlapping occurrence of
`pat` (scanning left to right); replacements are not rescanned. -/
def replaceAll (pat rep : PyStr) (s : PyStr) : PyStr :=
  replaceAllAux pat rep s.length s

/-- The text after the first occurrence of `pat` in `s`
(Python `s.split(pat)[1]` restricted to its use site, where at least one
occurrence of `pat` is known to exist; on no occurrence it returns `[]`). -/
def afterFirst (pat : PyStr) (s : PyStr) : PyStr :=
  match s with
  | [] => []
  | _ :: cs =>
    if startsWithL pat s then s.drop pat.length
    else afterFirst pat cs

/-- The text before the first occurrence of `pat` in `s` (all of `s` when
`pat` does not occur): the first element of Python `s.split(pat)`. -/
def beforeFirst (pat : PyStr) (s : PyStr) : PyStr :=
  match s with
  | [] => []
  | c :: cs => if startsWithL pat s then [] else c :: beforeFirst pat cs

/-- Python `s.split(pat)[1]` at a use site where `pat` is known to occur in
`s`: the field between the first occurrence of `pat` and the next occurrence
(or the end of the string) — everything after the first occurrence,
truncated before the following one. -/
def splitSecondField (pat s : PyStr) : PyStr := beforeFirst pat (afterFirst pat s)

/-- Python `s.split('.')[0]`: the maximal dot-free initial segment. -/
def beforeDot (s : PyStr) : PyStr := s.takeWhile (· ≠ '.')

/-- Python `s.lower()` (code-point-wise lowering suffices for the ASCII
provider tags compared against). -/
def lowerL (s : PyStr) : PyStr := s.map Char.toLower

/-- `len(s.encode("utf-8"))`: the UTF-8 byte length of a string. -/
def utf8Len (s : PyStr) : Nat := (s.map Char.utf8Size).sum

end McpS3

namespace McpS3

/-- The `LibcloudConfig` record (fields as constructed in
`tests/test_config.py`; optional fields `region`/`endpoint` default to
`None`, `base_path` defaults to `""`). -/
structure LibcloudConfig where
  remote_name : PyStr
  remote_type : PyStr
  access_key_id : PyStr
  secret_access_key : PyStr
  bucket : PyStr
  region : Option PyStr := none
  endpoint : Option PyStr := none
  base_path : PyStr := []
deriving Repr, DecidableEq

end McpS3

namespace McpS3

/-- The exception raised by the wrapper (`StorageError` in the source); the
unsupported-provider raise in `_create_driver` (re-wrapped by its
`except Exception` clause into "创建存储驱动失败") and the upload-time raise
of `_upload_file` / `upload_html_content` are the cases the claims need. -/
inductive StorageErr where
  | unsupportedType (remote_type : PyStr)
  | uploadFailed
deriving Repr, DecidableEq

/-- The libcloud provider constant selected by `get_driver`. -/
inductive Provider where
  | s3
  | aliyun_oss
deriving Repr, DecidableEq

/-- The keyword arguments `_create_driver` passes to the libcloud driver
class (`key`/`secret` always; `region`, `host`, `secure` only when the
corresponding branch sets them). -/
structure DriverKwargs where
  provider : Provider
  key : PyStr
  secret : PyStr
  region : Option PyStr := none
  host : Option PyStr := none
  secure : Option Bool := none
deriving Repr, DecidableEq

/-- `LibcloudStorageWrapper._create_driver`: computes the driver kwargs and
(for OSS) back-fills `config.region`.  Returns the kwargs together with the
configuration as it stands after the call; the external
`driver_cls(**driver_kwargs)` construction itself is outside the embedding. -/
def create_driver (cfg : LibcloudConfig) : Except StorageErr (DriverKwargs × LibcloudConfig) :=
  if lowerL cfg.remote_type = lit "s3" then
    let kw : DriverKwargs :=
      { provider := .s3, key := cfg.access_key_id, secret := cfg.secret_access_key }
    let kw := if truthyOpt cfg.region then { kw with region := some (cfg.region.getD []) } else kw
    let kw :=
      if truthyOpt cfg.endpoint then
        let ep := replaceAll (lit "http://") [] (replaceAll (lit "https://") [] (cfg.endpoint.getD []))
        let kw := { kw with host := some ep }
        if startsWithL (lit "https://") (cfg.endpoint.getD []) then kw
        else { kw with secure := some false }
      else kw
    .ok (kw, cfg)
  else if lowerL cfg.remote_type = lit "oss" then
    let kw : DriverKwargs :=
      { provider := .aliyun_oss, key := cfg.access_key_id, secret := cfg.secret_access_key }
    if truthyOpt cfg.region then
      .ok ({ kw with region := some (cfg.region.getD []) }, cfg)
    else if truthyOpt cfg.endpoint then
      if containsSub (lit "oss-") (cfg.endpoint.getD []) then
        let region := beforeDot (splitSecondField (lit "oss-") (cfg.endpoint.getD []))
        .ok ({ kw with region := some region }, { cfg with region := some region })
      else
        .ok (kw, cfg)
    else
      .ok ({ kw with region := some (lit "cn-hangzhou") }, { cfg with region := some (lit "cn-hangzhou") })
  else
    .error (.unsupportedType cfg.remote_type)

/-- Python `'/'.join(parts)`. -/
def joinSlash : List PyStr → PyStr
  | [] => []
  | [p] => p
  | p :: ps => p ++ lit "/" ++ joinSlash ps

/-- `LibcloudStorageWrapper._build_remote_path`. -/
def build_remote_path (base_path : PyStr) (remote_path : PyStr) : PyStr :=
  let path_parts : List PyStr :=
    (if truthyStr base_path then [stripC '/' base_path] else []) ++
    (if truthyStr remote_path then [stripC '/' remote_path] else [])
  if path_parts ≠ [] then joinSlash path_parts else stripC '/' remote_path

/-- `LibcloudStorageWrapper._generate_file_url`. -/
def generate_file_url (cfg : LibcloudConfig) (remote_path : PyStr) : PyStr :=
  if lowerL cfg.remote_type = lit "s3" then
    if truthyOpt cfg.endpoint = true ∧
        endsWithL (lit "amazonaws.com") (cfg.endpoint.getD []) = false then
      let base_url := rstripC '/' (cfg.endpoint.getD [])
      let base_url :=
        if startsWithL (lit "http://") base_url || startsWithL (lit "https://") base_url then
          base_url
        else lit "https://" ++ base_url
      base_url ++ lit "/" ++ cfg.bucket ++ lit "/" ++ remote_path
    else
      let region := pyOr cfg.region (lit "us-east-1")
      lit "https://" ++ cfg.bucket ++ lit ".s3." ++ region ++ lit ".amazonaws.com/" ++ remote_path
  else if lowerL cfg.remote_type = lit "oss" then
    if truthyOpt cfg.endpoint then
      let base_url := rstripC '/' (cfg.endpoint.getD [])
      let base_url :=
        if startsWithL (lit "http://") base_url || startsWithL (lit "https://") base_url then
          base_url
        else lit "https://" ++ base_url
      replaceAll (lit "oss-") (cfg.bucket ++ lit ".oss-") base_url ++ lit "/" ++ remote_path
    else
      let region := pyOr cfg.region (lit "cn-hangzhou")
      lit "https://" ++ cfg.bucket ++ lit ".oss-" ++ region ++ lit ".aliyuncs.com/" ++ remote_path
  else
    lit "https://" ++ cfg.bucket ++ lit "." ++ cfg.remote_type ++ lit ".com/" ++ remote_path

/-- The `full_remote_path` expression of `upload_html_content`
(`f"{remote_path.strip('/')}/{filename}"` when `remote_path` is truthy,
else `filename`). -/
def full_remote_path (filename remote_path : PyStr) : PyStr :=
  if truthyStr remote_path then stripC '/' remote_path ++ lit "/" ++ filename else filename

/-- `LibcloudStorageWrapper._upload_file` on an existing local file: the
container fetch and streamed upload are effectful, so their combined outcome
is an oracle `uploadOk`; on success the result is the URL of the fully-built
remote path, on failure the raised `StorageError`. -/
def upload_file (cfg : LibcloudConfig) (uploadOk : Bool) (remote_path : PyStr) :
    Except StorageErr PyStr :=
  if uploadOk then .ok (generate_file_url cfg (build_remote_path cfg.base_path remote_path))
  else .error .uploadFailed

/-- Oracles for the effectful steps of `upload_html_content`: whether
writing the content to the just-created temporary file succeeds
(`temp_file.write(html_content)`), and whether the remote upload succeeds. -/
structure UploadEnv where
  writeOk : Bool
  uploadOk : Bool
deriving Repr, DecidableEq

/-- Observable outcome of one `upload_html_content` call: the returned URL
or raised `StorageError`, and whether the temporary file is still on disk
after the call returns. -/
structure UploadRun where
  result : Except StorageErr PyStr
  tempExistsAfter : Bool
deriving Repr

/-- `LibcloudStorageWrapper.upload_html_content`: a temporary file is
created (`delete=False`); if the content write fails, the raised exception is
wrapped into `StorageError` but the inner `try/finally` that unlinks the file
is never entered, so the file stays on disk; if the write succeeds, the
`finally` unlinks the file on both the success and the upload-failure path. -/
def upload_html_content (cfg : LibcloudConfig) (env : UploadEnv)
    (_html_content filename remote_path : PyStr) : UploadRun :=
  if env.writeOk then
    { result := upload_file cfg env.uploadOk (full_remote_path filename remote_path)
      tempExistsAfter := false }
  else
    { result := .error .uploadFailed, tempExistsAfter := true }

/-- The filename normalization of `server.deploy_html`
(`if not filename.endswith(".html"): filename += ".html"`). -/
def deploy_filename (filename : PyStr) : PyStr :=
  if endsWithL (lit ".html") filename then filename else filename ++ lit ".html"

/-- The success dictionary of `server.deploy_html`. -/
structure DeployOk where
  filename : PyStr
  remote_path : PyStr
  url : PyStr
  size_bytes : Nat
deriving Repr, DecidableEq

/-- Result of `server.deploy_html`: the success dictionary, or the error
dictionary (which still reports the normalized filename). -/
inductive DeployResult where
  | success (r : DeployOk)
  | failure (filename : PyStr)
deriving Repr, DecidableEq

/-- `server.deploy_html`: normalizes the filename, uploads through
`upload_html_content`, and reports the URL and
`len(html_content.encode("utf-8"))` on success. -/
def deploy_html (cfg : LibcloudConfig) (env : UploadEnv)
    (html_content filename remote_path : PyStr) : DeployResult :=
  let filename := deploy_filename filename
  match (upload_html_content cfg env html_content filename remote_path).result with
  | .ok url =>
    .success { filename := filename, remote_path := remote_path, url := url,
               size_bytes := utf8Len html_content }
  | .error _ => .failure filename

/-- The `"filename"` entry of the dictionary `deploy_html` returns (present
in both the success and the error dictionary). -/
def reportedFilename : DeployResult → PyStr
  | .success r => r.filename
  | .failure fn => fn

/-- `LibcloudStorageWrapper.check_connection`: the
`driver.list_containers()` call is effectful, so its outcome is the
argument; every exception is caught and converted to `False`. -/
def check_connection (listOutcome : Except StorageErr (List PyStr)) : Bool :=
  match listOutcome with
  | .ok _ => true
  | .error _ => false

end McpS3

namespace McpS3

/-! Claim-side definitions: formulations written from the specification's
sentences, to be compared with the embedding above. -/

/-- Scheme defaulting as the spec words it: the URL keeps its scheme if it
has one, otherwise `https` is prefixed. -/
def specEnsureScheme (u : PyStr) : PyStr :=
  if startsWithL (lit "http://") u || startsWithL (lit "https://") u then u
  else lit "https://" ++ u

/-- Claim C1's S3 URL derivation: custom endpoint (set, not ending in
`amazonaws.com`) gives `https://{endpoint}/{bucket}/{p}` with trailing slash
stripped and scheme defaulted; every other case gives the virtual-host URL
with the region defaulted to `us-east-1`. -/
def claimS3Url (endpoint region : Option PyStr) (bucket p : PyStr) : PyStr :=
  let virtualHost :=
    lit "https://" ++ bucket ++ lit ".s3." ++ pyOr region (lit "us-east-1") ++
      lit ".amazonaws.com/" ++ p
  match endpoint with
  | some ep =>
    if ep ≠ [] ∧ endsWithL (lit "amazonaws.com") ep = false then
      specEnsureScheme (rstripC '/' ep) ++ lit "/" ++ bucket ++ lit "/" ++ p
    else virtualHost
  | none => virtualHost

/-- Claim C2's OSS URL derivation: endpoint set gives the endpoint with
trailing slash stripped and scheme defaulted, `"oss-"` replaced by
`"{bucket}.oss-"`, followed by `/{p}`; endpoint unset gives
`https://{bucket}.oss-{region-or-cn-hangzhou}.aliyuncs.com/{p}`. -/
def claimOssUrl (endpoint region : Option PyStr) (bucket p : PyStr) : PyStr :=
  let standard :=
    lit "https://" ++ bucket ++ lit ".oss-" ++ pyOr region (lit "cn-hangzhou") ++
      lit ".aliyuncs.com/" ++ p
  match endpoint with
  | some ep =>
    if ep ≠ [] then
      replaceAll (lit "oss-") (bucket ++ lit ".oss-") (specEnsureScheme (rstripC '/' ep)) ++
        lit "/" ++ p
    else standard
  | none => standard

/-- Claim C4's OSS region resolution read literally: (1) the explicit region
when set; (2) else the token between `"oss-"` and the following `.` when the
endpoint is set and contains `"oss-"`; (3) in every remaining case the
default `"cn-hangzhou"`. -/
def claimC4Region (region endpoint : Option PyStr) : Option PyStr :=
  if truthyOpt region then some (region.getD [])
  else if truthyOpt endpoint && containsSub (lit "oss-") (endpoint.getD []) then
    some (beforeDot (afterFirst (lit "oss-") (endpoint.getD [])))
  else some (lit "cn-hangzhou")

/-- The OSS region resolution as the code actually behaves (the amended
claim C4): like `claimC4Region`, except that the `"cn-hangzhou"` default
applies only when the endpoint is also unset, a set endpoint without
`"oss-"` resolves no region at all, and the extracted token is
`endpoint.split('oss-')[1].split('.')[0]` — the field between the first
`"oss-"` and the next `"oss-"` (if any), truncated at its first `.`. -/
def ossResolvedRegion (region endpoint : Option PyStr) : Option PyStr :=
  if truthyOpt region then some (region.getD [])
  else if truthyOpt endpoint then
    if containsSub (lit "oss-") (endpoint.getD []) then
      some (beforeDot (splitSecondField (lit "oss-") (endpoint.getD [])))
    else none
  else some (lit "cn-hangzhou")

/-- Whether the resolved OSS region is written back into the configuration
record (amended claim C4: exactly in the extraction and default cases). -/
def ossWritesBack (region endpoint : Option PyStr) : Bool :=
  !truthyOpt region &&
    (!truthyOpt endpoint || containsSub (lit "oss-") (endpoint.getD []))

/-! Concrete fixtures used by witnesses and counterexamples. -/

/-- S3 configuration of the spec's pinned example: endpoint unset, region
`us-east-1`, bucket `b`. -/
def cfgS3Std : LibcloudConfig :=
  { remote_name := lit "r", remote_type := lit "s3", access_key_id := lit "ak"
    secret_access_key := lit "sk", bucket := lit "b"
    region := some (lit "us-east-1") }

/-- S3 configuration with the spec's custom-endpoint example
`https://minio.example.com`. -/
def cfgS3Minio : LibcloudConfig :=
  { remote_name := lit "r", remote_type := lit "s3", access_key_id := lit "ak"
    secret_access_key := lit "sk", bucket := lit "b"
    endpoint := some (lit "https://minio.example.com") }

/-- OSS configuration of the spec's pinned example: endpoint
`https://oss-cn-hangzhou.aliyuncs.com`, region unset, bucket `b`. -/
def cfgOssEp : LibcloudConfig :=
  { remote_name := lit "r", remote_type := lit "oss", access_key_id := lit "ak"
    secret_access_key := lit "sk", bucket := lit "b"
    endpoint := some (lit "https://oss-cn-hangzhou.aliyuncs.com") }

/-- OSS configuration with region unset and an endpoint containing `"oss-"`
twice, pinning the `split('oss-')[1]` field semantics: the extracted region
is `"cn-"`, not `"cn-oss-hz"`. -/
def cfgOssDouble : LibcloudConfig :=
  { remote_name := lit "r", remote_type := lit "oss", access_key_id := lit "ak"
    secret_access_key := lit "sk", bucket := lit "b"
    endpoint := some (lit "https://oss-cn-oss-hz.aliyuncs.com") }

/-- OSS configuration with region unset and an endpoint that does not
contain `"oss-"` (claim C4's counterexample input). -/
def cfgOssNoOss : LibcloudConfig :=
  { remote_name := lit "r", remote_type := lit "oss", access_key_id := lit "ak"
    secret_access_key := lit "sk", bucket := lit "b"
    endpoint := some (lit "https://example.com") }

/-- OSS configuration with region unset and an endpoint without `"oss-"`
(claim C7's counterexample input). -/
def cfgOssPlainEp : LibcloudConfig :=
  { remote_name := lit "r", remote_type := lit "oss", access_key_id := lit "ak"
    secret_access_key := lit "sk", bucket := lit "b"
    endpoint := some (lit "https://storage.example.com") }

/-- Unsupported-provider configuration (claim C6's witness input). -/
def cfgAzure : LibcloudConfig :=
  { remote_name := lit "r", remote_type := lit "azure", access_key_id := lit "ak"
    secret_access_key := lit "sk", bucket := lit "b" }

end McpS3

namespace McpS3

theorem startsWithL_iff (p s : PyStr) : startsWithL p s = true ↔ ∃ t, s = p ++ t := by
  induction p generalizing s with
  | nil => simp [startsWithL]
  | cons a ps ih =>
    cases s with
    | nil => simp [startsWithL]
    | cons c cs =>
      simp only [startsWithL, Bool.and_eq_true, beq_iff_eq, ih, List.cons_append,
        List.cons.injEq]
      constructor
      · rintro ⟨rfl, t, rfl⟩
        exact ⟨t, rfl, rfl⟩
      · rintro ⟨t, rfl, rfl⟩
        exact ⟨rfl, t, rfl⟩

theorem endsWithL_iff (p s : PyStr) : endsWithL p s = true ↔ ∃ l, s = l ++ p := by
  unfold endsWithL
  rw [startsWithL_iff]
  constructor
  · rintro ⟨t, ht⟩
    refine ⟨t.reverse, ?_⟩
    have : s.reverse.reverse = (p.reverse ++ t).reverse := by rw [ht]
    simpa using this
  · rintro ⟨l, rfl⟩
    exact ⟨l.reverse, by simp⟩

theorem startsWith_single_iff (c : Char) (s : PyStr) :
    startsWithL [c] s = true ↔ s.head? = some c := by
  cases s with
  | nil =>
    rw [show startsWithL [c] [] = false from rfl]
    simp
  | cons x xs =>
    rw [show startsWithL [c] (x :: xs) = (c == x && startsWithL [] xs) from rfl,
      show startsWithL ([] : PyStr) xs = true from rfl]
    simp only [Bool.and_true, beq_iff_eq, List.head?_cons, Option.some.injEq]
    exact eq_comm

theorem dropWhile_head?_ne (c : Char) (l : PyStr) :
    (l.dropWhile (· == c)).head? ≠ some c := by
  induction l with
  | nil => simp
  | cons x xs ih =>
    by_cases h : x = c
    · simpa [List.dropWhile_cons, h] using ih
    · simp [List.dropWhile_cons, h]

theorem dropWhile_eq_self_of_head?_ne (c : Char) (l : PyStr) (h : l.head? ≠ some c) :
    l.dropWhile (· == c) = l := by
  cases l with
  | nil => rfl
  | cons x xs =>
    have hx : x ≠ c := by
      intro hxc
      exact h (by simp [hxc])
    simp [List.dropWhile_cons, hx]

theorem dropWhile_getLast?_ne (c : Char) (l : PyStr) (h : l.getLast? ≠ some c) :
    (l.dropWhile (· == c)).getLast? ≠ some c := by
  induction l with
  | nil => simp
  | cons x xs ih =>
    by_cases hx : x = c
    · cases xs with
      | nil =>
        exact absurd (by simp [hx]) h
      | cons y ys =>
        rw [List.dropWhile_cons]
        simp only [hx, beq_self_eq_true, if_true]
        exact ih (by simpa [List.getLast?_cons_cons] using h)
    · simpa [List.dropWhile_cons, hx] using h

theorem rstripC_eq_self (c : Char) (t : PyStr) (h : t.getLast? ≠ some c) :
    rstripC c t = t := by
  unfold rstripC
  rw [dropWhile_eq_self_of_head?_ne c t.reverse (by simpa [List.head?_reverse] using h)]
  exact List.reverse_reverse t

theorem rstripC_getLast?_ne (c : Char) (t : PyStr) :
    (rstripC c t).getLast? ≠ some c := by
  unfold rstripC
  rw [List.getLast?_reverse]
  exact dropWhile_head?_ne c t.reverse

theorem stripC_head?_ne (c : Char) (s : PyStr) : (stripC c s).head? ≠ some c :=
  dropWhile_head?_ne c (rstripC c s)

theorem stripC_getLast?_ne (c : Char) (s : PyStr) : (stripC c s).getLast? ≠ some c :=
  dropWhile_getLast?_ne c (rstripC c s) (rstripC_getLast?_ne c s)

theorem head?_append_left {a : PyStr} (b : PyStr) (h : a ≠ []) :
    (a ++ b).head? = a.head? := by
  cases a with
  | nil => exact absurd rfl h
  | cons x xs => rfl

theorem endsWith_append_self (p l : PyStr) : endsWithL p (l ++ p) = true :=
  (endsWithL_iff p (l ++ p)).mpr ⟨l, rfl⟩

theorem endsWith_append_left {p b : PyStr} (a : PyStr) (h : endsWithL p b = true) :
    endsWithL p (a ++ b) = true := by
  rcases (endsWithL_iff p b).mp h with ⟨l, rfl⟩
  exact (endsWithL_iff p (a ++ (l ++ p))).mpr ⟨a ++ l, by simp⟩

theorem stripC_endsWith (c : Char) (p s : PyStr) (hp : p ≠ [])
    (hhead : p.head? ≠ some c) (hlast : p.getLast? ≠ some c)
    (h : endsWithL p s = true) : endsWithL p (stripC c s) = true := by
  rcases (endsWithL_iff p s).mp h with ⟨l, rfl⟩
  have hrs : rstripC c (l ++ p) = l ++ p := by
    refine rstripC_eq_self c (l ++ p) ?_
    rw [List.getLast?_append_of_ne_nil l hp]
    exact hlast
  unfold stripC
  rw [hrs]
  unfold lstripC
  rw [List.dropWhile_append]
  split
  · rw [dropWhile_eq_self_of_head?_ne c p hhead]
    exact (endsWithL_iff p p).mpr ⟨[], rfl⟩
  · exact (endsWithL_iff p _).mpr ⟨_, rfl⟩

theorem truthyStr_false_iff (s : PyStr) : truthyStr s = false ↔ s = [] := by
  cases s <;> simp [truthyStr]

theorem truthyStr_true_iff (s : PyStr) : truthyStr s = true ↔ s ≠ [] := by
  cases s <;> simp [truthyStr]

theorem containsSub_pair_append (c : Char) (a b : PyStr)
    (ha : containsSub [c, c] a = false) (hb : containsSub [c, c] b = false)
    (hlast : a.getLast? ≠ some c) (hhead : b.head? ≠ some c) :
    containsSub [c, c] (a ++ c :: b) = false := by
  induction a with
  | nil =>
    have h1 : startsWithL [c] b = false := by
      cases hsw : startsWithL [c] b
      · rfl
      · exact absurd ((startsWith_single_iff c b).mp hsw) hhead
    simp [containsSub, startsWithL, h1, hb]
  | cons x xs ih =>
    have hxs : containsSub [c, c] xs = false := by
      have := ha
      simp only [containsSub, Bool.or_eq_false_iff] at this
      exact this.2
    have hlast' : xs.getLast? ≠ some c := by
      cases xs with
      | nil => simp
      | cons y ys => simpa [List.getLast?_cons_cons] using hlast
    have hrec := ih hxs hlast'
    simp only [List.cons_append, containsSub, Bool.or_eq_false_iff]
    refine ⟨?_, hrec⟩
    by_cases hxc : x = c
    · subst hxc
      have hfst : startsWithL [x] (xs ++ x :: b) = false := by
        cases xs with
        | nil => exact absurd rfl hlast
        | cons y ys =>
          have hy : x ≠ y := by
            intro hxy
            subst hxy
            simp [containsSub, startsWithL] at ha
          simp [startsWithL, List.cons_append, hy]
      simp [startsWithL, hfst]
    · simp [startsWithL, Ne.symm hxc, hxc]

theorem utf8Len_data (s : String) : utf8Len s.data = s.utf8ByteSize := by
  cases s with
  | mk l =>
    rw [String.utf8ByteSize_mk]
    induction l with
    | nil => rfl
    | cons c cs ih =>
      simp only [utf8Len, List.map_cons, List.sum_cons, String.utf8Len_cons] at *
      omega

/-- C1: for provider S3, the derived URL is the custom-endpoint path-style
URL `https://{endpoint}/{bucket}/{p}` (trailing slash stripped, scheme
defaulted to https) when the endpoint is set and does not end in
`amazonaws.com`, and otherwise the virtual-host-style URL
`https://{bucket}.s3.{region-or-us-east-1}.amazonaws.com/{p}`. -/
theorem s3_url_matches_claim (cfg : LibcloudConfig) (p : PyStr)
    (h : lowerL cfg.remote_type = lit "s3") :
    generate_file_url cfg p = claimS3Url cfg.endpoint cfg.region cfg.bucket p := by
  unfold generate_file_url claimS3Url
  rw [h, if_pos rfl]
  cases hep : cfg.endpoint with
  | none => simp [truthyOpt]
  | some ep =>
    by_cases he : ep = []
    · subst he
      simp [truthyOpt]
    · cases haz : endsWithL (lit "amazonaws.com") ep with
      | true => simp [truthyOpt, haz, he, List.isEmpty_iff]
      | false => simp [truthyOpt, haz, he, List.isEmpty_iff, specEnsureScheme]

/-- C1 witness: the spec's pinned examples — endpoint unset with region
`us-east-1` gives the virtual-host URL, and the custom minio endpoint gives
the path-style URL. -/
theorem s3_url_matches_claim_witness :
    lowerL cfgS3Std.remote_type = lit "s3"
    ∧ generate_file_url cfgS3Std (lit "x.html")
        = claimS3Url cfgS3Std.endpoint cfgS3Std.region cfgS3Std.bucket (lit "x.html")
    ∧ generate_file_url cfgS3Std (lit "x.html")
        = lit "https://b.s3.us-east-1.amazonaws.com/x.html"
    ∧ generate_file_url cfgS3Minio (lit "x.html")
        = lit "https://minio.example.com/b/x.html" :=
  ⟨by decide, s3_url_matches_claim cfgS3Std (lit "x.html") (by decide), by decide, by decide⟩

/-- C2: for provider OSS, the derived URL is the endpoint (trailing slash
stripped, scheme defaulted to https) with `"oss-"` replaced by
`"{bucket}.oss-"` followed by `/{p}` when the endpoint is set, and
`https://{bucket}.oss-{region-or-cn-hangzhou}.aliyuncs.com/{p}` when it is
unset. -/
theorem oss_url_matches_claim (cfg : LibcloudConfig) (p : PyStr)
    (h : lowerL cfg.remote_type = lit "oss") :
    generate_file_url cfg p = claimOssUrl cfg.endpoint cfg.region cfg.bucket p := by
  unfold generate_file_url claimOssUrl
  rw [h, if_neg (by decide), if_pos rfl]
  cases hep : cfg.endpoint with
  | none => simp [truthyOpt]
  | some ep =>
    by_cases he : ep = []
    · subst he
      simp [truthyOpt]
    · simp [truthyOpt, he, List.isEmpty_iff, specEnsureScheme]

/-- C2 witness: the spec's pinned OSS example — endpoint
`https://oss-cn-hangzhou.aliyuncs.com`, bucket `b` gives
`https://b.oss-cn-hangzhou.aliyuncs.com/x.html`. -/
theorem oss_url_matches_claim_witness :
    lowerL cfgOssEp.remote_type = lit "oss"
    ∧ generate_file_url cfgOssEp (lit "x.html")
        = claimOssUrl cfgOssEp.endpoint cfgOssEp.region cfgOssEp.bucket (lit "x.html")
    ∧ generate_file_url cfgOssEp (lit "x.html")
        = lit "https://b.oss-cn-hangzhou.aliyuncs.com/x.html" :=
  ⟨by decide, oss_url_matches_claim cfgOssEp (lit "x.html") (by decide), by decide⟩

theorem startsWith_slash_false_of_head? {s : PyStr} (h : s.head? ≠ some '/') :
    startsWithL (lit "/") s = false := by
  cases hsw : startsWithL (lit "/") s with
  | false => rfl
  | true =>
    have : startsWithL ['/'] s = true := hsw
    exact absurd ((startsWith_single_iff '/' s).mp this) h

/-- C3 counterexample: for `base_path = "/"` (non-empty, hence truthy, but
trimming to the empty segment) and relative path `"f.html"`, the builder
returns `"/f.html"`, which has a leading slash — refuting the claim that the
result never contains one. -/
theorem build_remote_path_claim_counterexample :
    build_remote_path (lit "/") (lit "f.html") = lit "/f.html"
    ∧ startsWithL (lit "/") (build_remote_path (lit "/") (lit "f.html")) = true := by
  constructor
  · decide
  · decide

/-- C3 amended: the builder joins the slash-trimmed values of the non-empty
inputs with exactly one `/` (empty result when both inputs are empty), and
the no-leading-slash / no-doubled-slash guarantee holds provided every
non-empty input still has a non-empty, `//`-free value after trimming. -/
theorem build_remote_path_amended (base remote : PyStr)
    (hb : truthyStr base = true →
      stripC '/' base ≠ [] ∧ containsSub (lit "//") (stripC '/' base) = false)
    (hr : truthyStr remote = true →
      stripC '/' remote ≠ [] ∧ containsSub (lit "//") (stripC '/' remote) = false) :
    build_remote_path base remote =
      joinSlash ((if truthyStr base then [stripC '/' base] else []) ++
        (if truthyStr remote then [stripC '/' remote] else []))
    ∧ startsWithL (lit "/") (build_remote_path base remote) = false
    ∧ containsSub (lit "//") (build_remote_path base remote) = false := by
  cases hbt : truthyStr base with
  | false =>
    have hbase : base = [] := (truthyStr_false_iff base).mp hbt
    subst hbase
    cases hrt : truthyStr remote with
    | false =>
      have hrem : remote = [] := (truthyStr_false_iff remote).mp hrt
      subst hrem
      refine ⟨by decide, by decide, by decide⟩
    | true =>
      obtain ⟨hne, hdd⟩ := hr hrt
      have hrne0 : remote ≠ [] := (truthyStr_true_iff remote).mp hrt
      have hbuild : build_remote_path [] remote = stripC '/' remote := by
        unfold build_remote_path
        simp [truthyStr, hrt, hrne0, joinSlash]
      refine ⟨?_, ?_, ?_⟩
      · rw [hbuild]
        simp [truthyStr, hrt, hrne0, joinSlash]
      · rw [hbuild]
        exact startsWith_slash_false_of_head? (stripC_head?_ne '/' remote)
      · rw [hbuild]
        exact hdd
  | true =>
    obtain ⟨hbne, hbdd⟩ := hb hbt
    cases hrt : truthyStr remote with
    | false =>
      have hrem : remote = [] := (truthyStr_false_iff remote).mp hrt
      subst hrem
      have hbne0 : base ≠ [] := (truthyStr_true_iff base).mp hbt
      have hbuild : build_remote_path base [] = stripC '/' base := by
        unfold build_remote_path
        simp [truthyStr, hbt, hbne0, joinSlash]
      refine ⟨?_, ?_, ?_⟩
      · rw [hbuild]
        simp [truthyStr, hbt, hbne0, joinSlash]
      · rw [hbuild]
        exact startsWith_slash_false_of_head? (stripC_head?_ne '/' base)
      · rw [hbuild]
        exact hbdd
    | true =>
      obtain ⟨hrne, hrdd⟩ := hr hrt
      have hbne0 : base ≠ [] := (truthyStr_true_iff base).mp hbt
      have hrne0 : remote ≠ [] := (truthyStr_true_iff remote).mp hrt
      have hbuild : build_remote_path base remote
          = stripC '/' base ++ '/' :: stripC '/' remote := by
        unfold build_remote_path
        simp [truthyStr, hbt, hrt, hbne0, hrne0, joinSlash, List.singleton_append,
          List.append_assoc, show (lit "/") = ['/'] from rfl]
      refine ⟨?_, ?_, ?_⟩
      · rw [hbuild]
        simp [truthyStr, hbt, hrt, hbne0, hrne0, joinSlash, List.singleton_append,
          List.append_assoc, show (lit "/") = ['/'] from rfl]
      · rw [hbuild]
        refine startsWith_slash_false_of_head? ?_
        rw [head?_append_left _ hbne]
        exact stripC_head?_ne '/' base
      · rw [hbuild]
        have : containsSub ['/', '/'] (stripC '/' base ++ '/' :: stripC '/' remote) = false :=
          containsSub_pair_append '/' (stripC '/' base) (stripC '/' remote)
            hbdd hrdd (stripC_getLast?_ne '/' base) (stripC_head?_ne '/' remote)
        exact this

/-- C3 amended witness: the spec's own sample inputs satisfy the amended
hypotheses, and a concrete instance evaluates as the amended claim states. -/
theorem build_remote_path_amended_witness :
    build_remote_path (lit "/uploads/") (lit "f.html") = lit "uploads/f.html"
    ∧ startsWithL (lit "/") (build_remote_path (lit "/uploads/") (lit "f.html")) = false
    ∧ containsSub (lit "//") (build_remote_path (lit "/uploads/") (lit "f.html")) = false := by
  have h := build_remote_path_amended (lit "/uploads/") (lit "f.html")
    (fun _ => by constructor <;> decide) (fun _ => by constructor <;> decide)
  exact ⟨by decide, h.2.1, h.2.2⟩

/-- C4 counterexample: with region unset and endpoint
`https://example.com` (set, but without `"oss-"`), the claim's literal
reading resolves the default `"cn-hangzhou"`, but `_create_driver` passes no
region to the driver and writes nothing back into the configuration. -/
theorem oss_region_claim_counterexample :
    claimC4Region cfgOssNoOss.region cfgOssNoOss.endpoint = some (lit "cn-hangzhou")
    ∧ (create_driver cfgOssNoOss).toOption.map (fun x => (x.1.region, x.2.region))
        = some (none, none) := by
  constructor
  · decide
  · rfl

/-- C4 amended: for provider OSS, driver construction succeeds and the
region passed to the driver is the explicit region, else — for an endpoint
containing `"oss-"` — the `split('oss-')[1]` field of the endpoint (the
text between the first `"oss-"` and the next, if any) truncated at its
first `.`, else (only when the endpoint is also unset) the default
`"cn-hangzhou"`; the resolved region is written back into the configuration
exactly in the extraction and default cases, and a set endpoint without
`"oss-"` yields no region and no write-back. -/
theorem oss_region_resolution_amended (cfg : LibcloudConfig)
    (h : lowerL cfg.remote_type = lit "oss") :
    create_driver cfg = .ok
      ({ provider := .aliyun_oss, key := cfg.access_key_id,
         secret := cfg.secret_access_key,
         region := ossResolvedRegion cfg.region cfg.endpoint },
       { cfg with region :=
          if ossWritesBack cfg.region cfg.endpoint then
            ossResolvedRegion cfg.region cfg.endpoint
          else cfg.region }) := by
  unfold create_driver
  rw [h, if_neg (by decide), if_pos rfl]
  cases hrg : truthyOpt cfg.region with
  | true => simp [hrg, ossResolvedRegion, ossWritesBack]
  | false =>
    cases hep : truthyOpt cfg.endpoint with
    | true =>
      cases hoss : containsSub (lit "oss-") (cfg.endpoint.getD []) with
      | true => simp [hrg, hep, hoss, ossResolvedRegion, ossWritesBack]
      | false => simp [hrg, hep, hoss, ossResolvedRegion, ossWritesBack]
    | false => simp [hrg, hep, ossResolvedRegion, ossWritesBack]

/-- C4 amended witness: the spec's pinned OSS example — region unset,
endpoint `https://oss-cn-hangzhou.aliyuncs.com` — resolves `cn-hangzhou`
and writes it back; an endpoint with `"oss-"` occurring twice
(`https://oss-cn-oss-hz.aliyuncs.com`) resolves the `split('oss-')[1]`
field `"cn-"`, not everything after the first `"oss-"`. -/
theorem oss_region_resolution_amended_witness :
    create_driver cfgOssEp = .ok
      ({ provider := .aliyun_oss, key := cfgOssEp.access_key_id,
         secret := cfgOssEp.secret_access_key,
         region := ossResolvedRegion cfgOssEp.region cfgOssEp.endpoint },
       { cfgOssEp with region :=
          if ossWritesBack cfgOssEp.region cfgOssEp.endpoint then
            ossResolvedRegion cfgOssEp.region cfgOssEp.endpoint
          else cfgOssEp.region })
    ∧ ossResolvedRegion cfgOssEp.region cfgOssEp.endpoint = some (lit "cn-hangzhou")
    ∧ ossWritesBack cfgOssEp.region cfgOssEp.endpoint = true
    ∧ create_driver cfgOssDouble = .ok
      ({ provider := .aliyun_oss, key := cfgOssDouble.access_key_id,
         secret := cfgOssDouble.secret_access_key,
         region := ossResolvedRegion cfgOssDouble.region cfgOssDouble.endpoint },
       { cfgOssDouble with region :=
          (if ossWritesBack cfgOssDouble.region cfgOssDouble.endpoint then
            ossResolvedRegion cfgOssDouble.region cfgOssDouble.endpoint
          else cfgOssDouble.region) })
    ∧ ossResolvedRegion cfgOssDouble.region cfgOssDouble.endpoint = some (lit "cn-") :=
  ⟨oss_region_resolution_amended cfgOssEp (by decide), by decide, by decide,
    oss_region_resolution_amended cfgOssDouble (by decide), by decide⟩

/-- C5 counterexample: when writing the content to the temporary file fails,
`upload_html_content` raises `StorageError` but the temporary file is still
on disk after the call — refuting cleanup on *every* exit path. -/
theorem upload_temp_cleanup_claim_counterexample :
    (upload_html_content cfgS3Std { writeOk := false, uploadOk := true }
      (lit "<p>hi</p>") (lit "i.html") []).tempExistsAfter = true
    ∧ (upload_html_content cfgS3Std { writeOk := false, uploadOk := true }
      (lit "<p>hi</p>") (lit "i.html") []).result = .error .uploadFailed :=
  ⟨rfl, rfl⟩

/-- C5 amended: whenever the content write succeeds, the temporary file is
deleted on both remaining exit paths (successful upload and upload failure);
only a write failure leaks the file. -/
theorem upload_temp_cleanup_amended (cfg : LibcloudConfig) (env : UploadEnv)
    (c f r : PyStr) (h : env.writeOk = true) :
    (upload_html_content cfg env c f r).tempExistsAfter = false := by
  simp [upload_html_content, h]

/-- C5 amended witness: on a failing upload (backend error) the temporary
file is gone and the call surfaces `StorageError`. -/
theorem upload_temp_cleanup_amended_witness :
    (upload_html_content cfgS3Std { writeOk := true, uploadOk := false }
      (lit "<p>hi</p>") (lit "i.html") []).tempExistsAfter = false
    ∧ (upload_html_content cfgS3Std { writeOk := true, uploadOk := false }
      (lit "<p>hi</p>") (lit "i.html") []).result = .error .uploadFailed :=
  ⟨upload_temp_cleanup_amended cfgS3Std { writeOk := true, uploadOk := false }
      (lit "<p>hi</p>") (lit "i.html") [] rfl, rfl⟩

/-- C6: any provider string that is neither `s3` nor `oss` after lowering
makes `_create_driver` fail with the unsupported-type `StorageError`
(the spec's `ConfigurationError`) before any driver is constructed. -/
theorem unsupported_provider_fails (cfg : LibcloudConfig)
    (h1 : lowerL cfg.remote_type ≠ lit "s3") (h2 : lowerL cfg.remote_type ≠ lit "oss") :
    create_driver cfg = .error (.unsupportedType cfg.remote_type) := by
  unfold create_driver
  rw [if_neg h1, if_neg h2]

/-- C6 witness: provider `azure` is rejected at construction. -/
theorem unsupported_provider_fails_witness :
    create_driver cfgAzure = .error (.unsupportedType (lit "azure")) :=
  unsupported_provider_fails cfgAzure (by decide) (by decide)

/-- C7 counterexample: for provider OSS with region unset and endpoint
`https://storage.example.com` (no `"oss-"`), construction does not fail at
all — the resolver returns driver kwargs without any region — refuting the
claimed `ConfigurationError`. -/
theorem oss_no_region_claim_counterexample :
    create_driver cfgOssPlainEp = .ok
      ({ provider := .aliyun_oss, key := lit "ak", secret := lit "sk" },
        cfgOssPlainEp) :=
  rfl

/-- C7 amended: for provider OSS with a falsy region and a truthy endpoint
not containing `"oss-"`, construction succeeds with no region kwarg and the
configuration left unchanged; no error is raised by the resolver. -/
theorem oss_no_region_succeeds (cfg : LibcloudConfig)
    (hp : lowerL cfg.remote_type = lit "oss") (hr : truthyOpt cfg.region = false)
    (he : truthyOpt cfg.endpoint = true)
    (hoss : containsSub (lit "oss-") (cfg.endpoint.getD []) = false) :
    create_driver cfg = .ok
      ({ provider := .aliyun_oss, key := cfg.access_key_id,
         secret := cfg.secret_access_key }, cfg) := by
  unfold create_driver
  rw [hp, if_neg (by decide), if_pos rfl]
  simp [hr, he, hoss]

/-- C7 amended witness. -/
theorem oss_no_region_succeeds_witness :
    create_driver cfgOssPlainEp = .ok
      ({ provider := .aliyun_oss, key := cfgOssPlainEp.access_key_id,
         secret := cfgOssPlainEp.secret_access_key }, cfgOssPlainEp) :=
  oss_no_region_succeeds cfgOssPlainEp (by decide) (by decide) (by decide) (by decide)

/-- C8: `check_connection` is a total boolean function of the listing
outcome — `true` exactly when `list_containers` succeeds, `false` for every
thrown error, never a propagated exception. -/
theorem check_connection_never_raises (outcome : Except StorageErr (List PyStr)) :
    check_connection outcome = true ↔ ∃ cs, outcome = .ok cs := by
  cases outcome with
  | ok cs => simp [check_connection]
  | error e => simp [check_connection]

/-- C8 witness: a successful listing maps to `true`, a thrown error to
`false`. -/
theorem check_connection_never_raises_witness :
    check_connection (.ok [lit "bucket"]) = true
    ∧ check_connection (.error .uploadFailed) = false :=
  ⟨(check_connection_never_raises (.ok [lit "bucket"])).mpr ⟨_, rfl⟩, rfl⟩

theorem deploy_html_success_size (cfg : LibcloudConfig) (env : UploadEnv)
    (hc f r : PyStr) (res : DeployOk)
    (h : deploy_html cfg env hc f r = .success res) :
    res.size_bytes = utf8Len hc := by
  unfold deploy_html at h
  dsimp only at h
  split at h
  · cases h
    rfl
  · cases h

/-- C9: on a successful deploy, the reported `size_bytes` is exactly the
UTF-8 byte length of the content string, not its character count. -/
theorem deploy_size_bytes_utf8 (cfg : LibcloudConfig) (env : UploadEnv)
    (content : String) (filename remote_path : PyStr) (res : DeployOk)
    (h : deploy_html cfg env content.data filename remote_path = .success res) :
    res.size_bytes = content.utf8ByteSize := by
  rw [deploy_html_success_size cfg env content.data filename remote_path res h]
  exact utf8Len_data content

/-- The concrete success record of the C9 witness deploy. -/
def resDeployCn : DeployOk :=
  { filename := lit "index.html", remote_path := []
    url := lit "https://b.s3.us-east-1.amazonaws.com/index.html"
    size_bytes := 6 }

/-- C9 witness: content `"你好"` (2 characters, 6 UTF-8 bytes) reports
`size_bytes = 6`, the byte length, not the character count. -/
theorem deploy_size_bytes_utf8_witness :
    resDeployCn.size_bytes = ("你好" : String).utf8ByteSize
    ∧ resDeployCn.size_bytes ≠ ("你好" : String).length :=
  ⟨deploy_size_bytes_utf8 cfgS3Std { writeOk := true, uploadOk := true } "你好"
      (lit "index") [] resDeployCn (by decide),
    by decide⟩

/-- C10: `deploy_html`'s filename always ends in `.html` (a filename already
ending in `.html` is kept unchanged), the uploaded object name —
the fully-built remote path — ends in `.html`, and the result dictionary
reports the normalized filename on success and failure alike. -/
theorem deploy_filename_always_html (f base remote : PyStr) :
    endsWithL (lit ".html") (deploy_filename f) = true
    ∧ (endsWithL (lit ".html") f = true → deploy_filename f = f)
    ∧ endsWithL (lit ".html")
        (build_remote_path base (full_remote_path (deploy_filename f) remote)) = true
    ∧ (∀ cfg env c, reportedFilename (deploy_html cfg env c f remote) = deploy_filename f) := by
  have h1 : endsWithL (lit ".html") (deploy_filename f) = true := by
    unfold deploy_filename
    cases hf : endsWithL (lit ".html") f with
    | true => simp [hf]
    | false =>
      rw [if_neg (by simp [hf])]
      exact endsWith_append_self (lit ".html") f
  refine ⟨h1, ?_, ?_, ?_⟩
  · intro hf
    simp [deploy_filename, hf]
  · have hfull : endsWithL (lit ".html") (full_remote_path (deploy_filename f) remote) = true := by
      unfold full_remote_path
      cases ht : truthyStr remote with
      | true =>
        rw [if_pos rfl]
        exact endsWith_append_left _ h1
      | false =>
        rw [if_neg (by simp)]
        exact h1
    have hfne : full_remote_path (deploy_filename f) remote ≠ [] := by
      rcases (endsWithL_iff _ _).mp hfull with ⟨l, hl⟩
      rw [hl]
      simp [lit]
    have hft : truthyStr (full_remote_path (deploy_filename f) remote) = true :=
      (truthyStr_true_iff _).mpr hfne
    have hstrip : endsWithL (lit ".html")
        (stripC '/' (full_remote_path (deploy_filename f) remote)) = true :=
      stripC_endsWith '/' (lit ".html") _ (by decide) (by decide) (by decide) hfull
    cases hbt : truthyStr base with
    | false =>
      have hb2 : build_remote_path base (full_remote_path (deploy_filename f) remote)
          = stripC '/' (full_remote_path (deploy_filename f) remote) := by
        unfold build_remote_path
        simp [hbt, hft, joinSlash]
      rw [hb2]
      exact hstrip
    | true =>
      have hb2 : build_remote_path base (full_remote_path (deploy_filename f) remote)
          = stripC '/' base ++
            (lit "/" ++ stripC '/' (full_remote_path (deploy_filename f) remote)) := by
        unfold build_remote_path
        simp [hbt, hft, joinSlash]
      rw [hb2]
      exact endsWith_append_left _ (endsWith_append_left _ hstrip)
  · intro cfg env c
    cases hres : (upload_html_content cfg env c (deploy_filename f) remote).result with
    | ok url => simp [deploy_html, reportedFilename, hres]
    | error e => simp [deploy_html, reportedFilename, hres]

/-- C10 witness: a filename already ending in `.html` is kept, one without
the suffix gets it appended, and the object name of a concrete deploy ends
in `.html`. -/
theorem deploy_filename_always_html_witness :
    deploy_filename (lit "a.html") = lit "a.html"
    ∧ endsWithL (lit ".html") (deploy_filename (lit "page")) = true
    ∧ endsWithL (lit ".html")
        (build_remote_path (lit "uploads") (full_remote_path (deploy_filename (lit "page")) (lit "pages"))) = true :=
  ⟨(deploy_filename_always_html (lit "a.html") [] []).2.1 (by decide),
    (deploy_filename_always_html (lit "page") [] []).1,
    (deploy_filename_always_html (lit "page") (lit "uploads") (lit "pages")).2.2.1⟩

end McpS3
